import Mathlib

/-!
Shallow embedding of the `pci-id-parser` crate (pci.ids database parser).

Conventions of the embedding:
* A byte is a `Nat` (values 0..255); a line, a name or a raw id token is a
  `List Nat` of bytes.  Rust `String`s are kept as their UTF-8 byte lists.
* `HashMap` is modelled as an association list whose `insert` conses the new
  binding in front and whose `get?` takes the most recent binding; only these
  two operations are observed by the code under study, and on them the model
  has the map semantics of the original (last insert wins).
* The event classifier (`Parser::next_event`) is modelled at the token level:
  an event carries the raw id byte slices exactly as cut out of the line, and
  the aggregator (`Database::parse_db`) converts them with `from_str_radix`
  as in `lib.rs`; `parser.rs`'s own `parse_id` (the `atoi` fast path) is
  modelled separately as `parse_id`.
* The SIMD line matcher (`buf_to_vector` / `matches_pattern`) is modelled
  bit-precisely: lane-wise equality, `move_mask` (bit i = lane i),
  `reverse_bits` on 32 bits, and the `& mask == mask` test.
* Rust `Error` values are modelled by the inductive `Err`; each constructor
  records which `Error::Parse(..)` message of the source it stands for, and
  keeps the offending token or line as payload where the message embeds it.
* The streaming searches pull events lazily in Rust; they are modelled over
  the fully classified event list, which coincides with the lazy behaviour on
  every stream that classifies without error (the situation all claims below
  are about).
-/

namespace PciIds

/-- Section state of `Parser` (`parser.rs`): device-list section vs
class-taxonomy section. -/
inductive PSection where
  | devices
  | classes
deriving DecidableEq, Repr

/-- Classified line events (`parser.rs` `Event`), at the token level: ids are
the raw byte slices cut out of the line. -/
inductive Event where
  | vendor (id name : List Nat)
  | device (id name : List Nat)
  | subdevice (subvendor subdevice name : List Nat)
  | classEv (id name : List Nat)
  | subclassEv (id name : List Nat)
  | progIf (id name : List Nat)
deriving DecidableEq, Repr

/-- Error values (`error.rs`).  Every `parse*` constructor corresponds to an
`Error::Parse(msg)` of the source, with the offending data kept as payload. -/
inductive Err where
  | fileNotFound
  | noCurrentVendor
  | noCurrentDevice
  | noCurrentClass
  | noCurrentSubClass
  | couldNotMatchDeviceLine (line : List Nat)
  | couldNotMatchClassLine (line : List Nat)
  | invalidInt (token : List Nat)
  | couldNotParseInt (token : List Nat)
  | utf8Error
deriving DecidableEq, Repr

/-- Lane-wise byte equality of two 16-byte vectors (`i8x16::cmp_eq`). -/
def cmpEq (w needle : List Nat) : List Bool :=
  List.zipWith (fun a b => decide (a = b)) w needle

/-- The `move_mask` of a comparison result: bit `i` of the result is lane `i`
(little-endian, as on x86). -/
def moveMask : List Bool → Nat
  | [] => 0
  | b :: bs => (cond b 1 0) + 2 * moveMask bs

/-- Reversal of the low `k` bits of a natural number (bit 0 becomes bit
`k-1` and so on). -/
def revBits : Nat → Nat → Nat
  | 0, _ => 0
  | k + 1, n => (n % 2) * 2 ^ k + revBits k (n / 2)

/-- The `i32::reverse_bits` used by `matches_pattern`, on 32 bits. -/
def reverseBits32 (n : Nat) : Nat := revBits 32 n

/-- The SIMD pattern test of `parser.rs::matches_pattern`:
`vector.cmp_eq(needle).move_mask().reverse_bits() & mask == mask`. -/
def matchesPattern (w needle : List Nat) (mask : Nat) : Bool :=
  decide ((reverseBits32 (moveMask (cmpEq w needle)) &&& mask) = mask)

/-- The comparison window of `parser.rs::buf_to_vector`: the first 16 line
bytes, zero-padded on the right when the line is shorter than 16 bytes. -/
def bufToVector (buf : List Nat) : List Nat :=
  buf.take 16 ++ List.replicate (16 - buf.length) 0

/-- `VENDOR_NEEDLE` of `parser.rs`. -/
def vendorNeedle : List Nat := [0, 0, 0, 0, 32, 32, 0, 0, 0, 0, 0, 0, 0, 0, 0, 0]

/-- `VENDOR_MASK` of `parser.rs` (`0b00_0011 << 26`). -/
def vendorMask : Nat := 3 <<< 26

/-- `DEVICE_NEEDLE` of `parser.rs`. -/
def deviceNeedle : List Nat := [9, 0, 0, 0, 0, 32, 32, 0, 0, 0, 0, 0, 0, 0, 0, 0]

/-- `DEVICE_MASK` of `parser.rs` (`0b100_0011 << 25`). -/
def deviceMask : Nat := 67 <<< 25

/-- `SUBDEVICE_NEEDLE` of `parser.rs`. -/
def subdeviceNeedle : List Nat := [9, 9, 0, 0, 0, 0, 32, 0, 0, 0, 0, 32, 32, 0, 0, 0]

/-- `SUBDEVICE_MASK` of `parser.rs` (`0b1_1000_0100_0011 << 19`). -/
def subdeviceMask : Nat := 6211 <<< 19

/-- `CLASS_NEEDLE` of `parser.rs`. -/
def classNeedle : List Nat := [67, 32, 0, 0, 32, 32, 0, 0, 0, 0, 0, 0, 0, 0, 0, 0]

/-- `CLASS_MASK` of `parser.rs` (`0b10011 << 26`). -/
def classMask : Nat := 19 <<< 26

/-- `SUBCLASS_NEEDLE` of `parser.rs`. -/
def subclassNeedle : List Nat := [9, 0, 0, 32, 32, 0, 0, 0, 0, 0, 0, 0, 0, 0, 0, 0]

/-- `SUBCLASS_MASK` of `parser.rs` (`0b1_00_11 << 27`). -/
def subclassMask : Nat := 19 <<< 27

/-- `PROG_IF_NEEDLE` of `parser.rs`. -/
def progIfNeedle : List Nat := [9, 9, 0, 0, 32, 32, 0, 0, 0, 0, 0, 0, 0, 0, 0, 0]

/-- `PROG_IF_MASK` of `parser.rs` (`0b11_0011 << 26`). -/
def progIfMask : Nat := 51 <<< 26

/-- Exact UTF-8 well-formedness of a byte list, as checked by Rust's
`std::str::from_utf8` on each extracted name. -/
def validUtf8 : List Nat → Bool
  | [] => true
  | b :: rest =>
    if b < 128 then validUtf8 rest
    else if 194 ≤ b ∧ b ≤ 223 then
      match rest with
      | c :: r => decide (128 ≤ c ∧ c ≤ 191) && validUtf8 r
      | [] => false
    else if b = 224 then
      match rest with
      | c :: d :: r => decide (160 ≤ c ∧ c ≤ 191) && decide (128 ≤ d ∧ d ≤ 191) && validUtf8 r
      | _ => false
    else if (225 ≤ b ∧ b ≤ 236) ∨ b = 238 ∨ b = 239 then
      match rest with
      | c :: d :: r => decide (128 ≤ c ∧ c ≤ 191) && decide (128 ≤ d ∧ d ≤ 191) && validUtf8 r
      | _ => false
    else if b = 237 then
      match rest with
      | c :: d :: r => decide (128 ≤ c ∧ c ≤ 159) && decide (128 ≤ d ∧ d ≤ 191) && validUtf8 r
      | _ => false
    else if b = 240 then
      match rest with
      | c :: d :: e :: r =>
        decide (144 ≤ c ∧ c ≤ 191) && decide (128 ≤ d ∧ d ≤ 191) &&
          decide (128 ≤ e ∧ e ≤ 191) && validUtf8 r
      | _ => false
    else if 241 ≤ b ∧ b ≤ 243 then
      match rest with
      | c :: d :: e :: r =>
        decide (128 ≤ c ∧ c ≤ 191) && decide (128 ≤ d ∧ d ≤ 191) &&
          decide (128 ≤ e ∧ e ≤ 191) && validUtf8 r
      | _ => false
    else if b = 244 then
      match rest with
      | c :: d :: e :: r =>
        decide (128 ≤ c ∧ c ≤ 143) && decide (128 ≤ d ∧ d ≤ 191) &&
          decide (128 ≤ e ∧ e ≤ 191) && validUtf8 r
      | _ => false
    else false

/-- Name extraction: `std::str::from_utf8(..)?`, propagated as
`Error::Utf8Error` on invalid encoding. -/
def utf8Name (l : List Nat) : Except Err (List Nat) :=
  if validUtf8 l then .ok l else .error .utf8Error

/-- One-line classification, the body of `Parser::next_event` after the skip
checks (`parser.rs`): tries the per-section needle patterns in source order
and cuts out the id tokens and the name by the source's fixed slice bounds.
Returns the event together with the section in force after the line (the
class arm of the device section assigns `self.section = Section::Classes`). -/
def classify (s : PSection) (buf : List Nat) : Except Err (Event × PSection) :=
  let v := bufToVector buf
  match s with
  | .devices =>
    if matchesPattern v classNeedle classMask then
      match utf8Name (buf.drop 6) with
      | .error e => .error e
      | .ok name => .ok (.classEv ((buf.drop 2).take 2) name, .classes)
    else if matchesPattern v deviceNeedle deviceMask then
      match utf8Name (buf.drop 7) with
      | .error e => .error e
      | .ok name => .ok (.device ((buf.drop 1).take 4) name, .devices)
    else if matchesPattern v vendorNeedle vendorMask then
      match utf8Name (buf.drop 6) with
      | .error e => .error e
      | .ok name => .ok (.vendor (buf.take 4) name, .devices)
    else if matchesPattern v subdeviceNeedle subdeviceMask then
      match utf8Name (buf.drop 13) with
      | .error e => .error e
      | .ok name => .ok (.subdevice ((buf.drop 2).take 4) ((buf.drop 7).take 4) name, .devices)
    else
      .error (.couldNotMatchDeviceLine buf)
  | .classes =>
    if matchesPattern v classNeedle classMask then
      match utf8Name (buf.drop 6) with
      | .error e => .error e
      | .ok name => .ok (.classEv ((buf.drop 2).take 2) name, .classes)
    else if matchesPattern v subclassNeedle subclassMask then
      match utf8Name (buf.drop 5) with
      | .error e => .error e
      | .ok name => .ok (.subclassEv ((buf.drop 1).take 2) name, .classes)
    else if matchesPattern v progIfNeedle progIfMask then
      match utf8Name (buf.drop 6) with
      | .error e => .error e
      | .ok name => .ok (.progIf ((buf.drop 2).take 2) name, .classes)
    else
      .error (.couldNotMatchClassLine buf)

/-- Chunking a byte stream the way `BufRead::read_until(b'\n')` delivers it:
each chunk ends with the newline byte, except that a final chunk at end of
input may lack it.  Zero bytes read terminates the sequence. -/
def splitChunksAux : List Nat → List Nat → List (List Nat)
  | [], acc => if acc.isEmpty then [] else [acc.reverse]
  | b :: bs, acc =>
    if b = 10 then (acc.reverse ++ [10]) :: splitChunksAux bs []
    else splitChunksAux bs (b :: acc)

/-- Chunks of a byte stream as produced by repeated `read_until(b'\n')`. -/
def splitChunks (bytes : List Nat) : List (List Nat) := splitChunksAux bytes []

/-- The skip test of `Parser::next_event`: empty buffer, a line starting with
`#`, or a buffer equal to a single newline produce no event. -/
def skipLine (c : List Nat) : Bool :=
  c.isEmpty || (c.head? = some 35) || (c = [10])

/-- One pull of `Parser::next_event` on the remaining chunk list: skips
comment/blank chunks, classifies the first remaining line with its trailing
byte stripped (`&buf[..len-1]`), and returns no event at end of input. -/
def nextEvent (s : PSection) : List (List Nat) →
    Except Err (Option Event × PSection × List (List Nat))
  | [] => .ok (none, s, [])
  | c :: rest =>
    if skipLine c then nextEvent s rest
    else
      match classify s c.dropLast with
      | .error e => .error e
      | .ok (ev, s') => .ok (some ev, s', rest)

/-- The full event sequence of a chunk list (repeated `next_event` until the
no-event terminator). -/
def tokenEvents (s : PSection) : List (List Nat) → Except Err (List Event)
  | [] => .ok []
  | c :: rest =>
    if skipLine c then tokenEvents s rest
    else
      match classify s c.dropLast with
      | .error e => .error e
      | .ok (ev, s') =>
        match tokenEvents s' rest with
        | .error e => .error e
        | .ok evs => .ok (ev :: evs)

/-- Value of one hexadecimal digit byte (both cases), if it is one. -/
def hexDigitVal? (b : Nat) : Option Nat :=
  if 48 ≤ b ∧ b ≤ 57 then some (b - 48)
  else if 97 ≤ b ∧ b ≤ 102 then some (b - 87)
  else if 65 ≤ b ∧ b ≤ 70 then some (b - 55)
  else none

/-- Hex-digit test on a byte. -/
def isHexDigitB (b : Nat) : Bool := (hexDigitVal? b).isSome

/-- The `atoi` crate's `FromRadix16::from_radix_16`: consume hexadecimal
digits from the front, returning the accumulated value together with the
offset of the first non-digit byte.  The id slices handed to it are at most
four digits, so the machine-width overflow of the original cannot occur. -/
def fromRadix16 : List Nat → Nat × Nat
  | [] => (0, 0)
  | b :: rest =>
    match hexDigitVal? b with
    | none => (0, 0)
    | some d =>
      let rec go (acc : Nat) : List Nat → Nat × Nat
        | [] => (acc, 0)
        | c :: cs =>
          match hexDigitVal? c with
          | none => (acc, 0)
          | some e =>
            let (v, k) := go (acc * 16 + e) cs
            (v, k + 1)
      let (v, k) := go d rest
      (v, k + 1)

/-- `parser.rs::parse_id`: succeed with the parsed value unless the consumed
offset is zero, in which case fail with the integer-parse error naming the
offending token. -/
def parse_id (value : List Nat) : Except Err Nat :=
  let p := fromRadix16 value
  if p.2 = 0 then .error (.couldNotParseInt value) else .ok p.1

/-- Digit run of `u16::from_str_radix`: at least one digit, all bytes hex
digits.  The tokens handed to it are at most four digits, so the `u16`
overflow error of the original cannot occur. -/
def strRadixDigits : List Nat → Option Nat
  | [] => none
  | b :: rest =>
    match hexDigitVal? b with
    | none => none
    | some d => rest.foldlM (fun acc c => (hexDigitVal? c).map (fun e => acc * 16 + e)) d

/-- `u16::from_str_radix(src, 16)` (also standing in for the `u8` variant):
an optional leading `+` sign followed by one or more hex digits. -/
def fromStrRadix16 : List Nat → Option Nat
  | [] => none
  | 43 :: rest => strRadixDigits rest
  | l => strRadixDigits l

/-- Id conversion as done in `Database::parse_db`:
`from_str_radix(id, 16).map_err(|_| Error::invalid_int(id))`. -/
def parseInt (tok : List Nat) : Except Err Nat :=
  match fromStrRadix16 tok with
  | some v => .ok v
  | none => .error (.invalidInt tok)

/-- Association-list stand-in for `HashMap`: `insert` puts the new binding in
front, `get?` reads the most recent one (last insert wins, as for the map). -/
def alInsert {α β : Type} (m : List (α × β)) (k : α) (v : β) : List (α × β) :=
  (k, v) :: m

/-- Lookup in the association-list map. -/
def alGet {α β : Type} [DecidableEq α] : List (α × β) → α → Option β
  | [], _ => none
  | (k', v) :: rest, k => if k' = k then some v else alGet rest k

/-- `schema.rs::Device`: name and subdevice map keyed by the composite
`(subvendor, subdevice)` id. -/
structure Device where
  name : List Nat
  subdevices : List ((Nat × Nat) × List Nat)
deriving DecidableEq, Repr

/-- `schema.rs::Vendor`: name and device map. -/
structure Vendor where
  name : List Nat
  devices : List (Nat × Device)
deriving DecidableEq, Repr

/-- `schema.rs::SubClass`: name and programming-interface map. -/
structure SubClass where
  name : List Nat
  progIfs : List (Nat × List Nat)
deriving DecidableEq, Repr

/-- `schema.rs::Class`: name and subclass map. -/
structure Class where
  name : List Nat
  subclasses : List (Nat × SubClass)
deriving DecidableEq, Repr

/-- `lib.rs::Database`: the two top-level maps. -/
structure Database where
  vendors : List (Nat × Vendor)
  classes : List (Nat × Class)
deriving DecidableEq, Repr

/-- `schema.rs::DeviceInfo`: the four independently optional result fields of
`get_device_info`. -/
structure DeviceInfo where
  vendorName : Option (List Nat)
  deviceName : Option (List Nat)
  subvendorName : Option (List Nat)
  subdeviceName : Option (List Nat)
deriving DecidableEq, Repr

/-- The four open slots and two result maps threaded through
`Database::parse_db`'s event loop. -/
structure PState where
  curVendor : Option (Nat × Vendor)
  curDevice : Option (Nat × Device)
  curClass : Option (Nat × Class)
  curSubclass : Option (Nat × SubClass)
  vendors : List (Nat × Vendor)
  classes : List (Nat × Class)
deriving DecidableEq, Repr

/-- Initial aggregation state of `parse_db`. -/
def initState : PState := ⟨none, none, none, none, [], []⟩

/-- The device-commit prologue shared by the `Vendor` and `Device` arms of
`parse_db`: an open device is moved into the open vendor's device map
(`Error::no_current_vendor` if no vendor is open). -/
def commitDevice (st : PState) : Except Err PState :=
  match st.curDevice with
  | none => .ok st
  | some (did, dev) =>
    match st.curVendor with
    | none => .error .noCurrentVendor
    | some (vid, ven) =>
      .ok { st with
        curVendor := some (vid, { ven with devices := alInsert ven.devices did dev })
        curDevice := none }

/-- The vendor-commit step of the `Vendor` arm: an open vendor is moved into
the top-level vendor map. -/
def commitVendor (st : PState) : PState :=
  match st.curVendor with
  | none => st
  | some (vid, ven) => { st with vendors := alInsert st.vendors vid ven, curVendor := none }

/-- The subclass-commit prologue shared by the `Class` and `SubClass` arms:
an open subclass is moved into the open class's subclass map
(`Error::no_current_class` if no class is open). -/
def commitSubclass (st : PState) : Except Err PState :=
  match st.curSubclass with
  | none => .ok st
  | some (scid, sc) =>
    match st.curClass with
    | none => .error .noCurrentClass
    | some (cid, cl) =>
      .ok { st with
        curClass := some (cid, { cl with subclasses := alInsert cl.subclasses scid sc })
        curSubclass := none }

/-- The class-commit step of the `Class` arm: an open class is moved into the
top-level class map. -/
def commitClass (st : PState) : PState :=
  match st.curClass with
  | none => st
  | some (cid, cl) => { st with classes := alInsert st.classes cid cl, curClass := none }

/-- One iteration of the event loop of `Database::parse_db` (`lib.rs`),
arm by arm in source order. -/
def processEvent (st : PState) (ev : Event) : Except Err PState :=
  match ev with
  | .vendor id name =>
    match commitDevice st with
    | .error e => .error e
    | .ok st1 =>
      let st2 := commitVendor st1
      match parseInt id with
      | .error e => .error e
      | .ok vid => .ok { st2 with curVendor := some (vid, ⟨name, []⟩) }
  | .device id name =>
    match commitDevice st with
    | .error e => .error e
    | .ok st1 =>
      match parseInt id with
      | .error e => .error e
      | .ok did => .ok { st1 with curDevice := some (did, ⟨name, []⟩) }
  | .subdevice subvendor subdevice subsystemName =>
    match st.curDevice with
    | none => .error .noCurrentDevice
    | some (did, dev) =>
      match parseInt subvendor with
      | .error e => .error e
      | .ok sv =>
        match parseInt subdevice with
        | .error e => .error e
        | .ok sd => .ok { st with
            curDevice := some (did, { dev with
              subdevices := alInsert dev.subdevices (sv, sd) subsystemName }) }
  | .classEv id name =>
    match commitSubclass st with
    | .error e => .error e
    | .ok st1 =>
      let st2 := commitClass st1
      match parseInt id with
      | .error e => .error e
      | .ok cid => .ok { st2 with curClass := some (cid, ⟨name, []⟩) }
  | .subclassEv id name =>
    match commitSubclass st with
    | .error e => .error e
    | .ok st1 =>
      match parseInt id with
      | .error e => .error e
      | .ok scid => .ok { st1 with curSubclass := some (scid, ⟨name, []⟩) }
  | .progIf id name =>
    match st.curSubclass with
    | none => .error .noCurrentSubClass
    | some (scid, sc) =>
      match parseInt id with
      | .error e => .error e
      | .ok pid =>
        .ok { st with curSubclass := some (scid, { sc with progIfs := alInsert sc.progIfs pid name }) }

/-- The end-of-stream flush of `parse_db` (lib.rs lines 199-217): device into
vendor, vendor into map, subclass into class, class into map, in that fixed
order. -/
def finishDb (st : PState) : Except Err Database :=
  match commitDevice st with
  | .error e => .error e
  | .ok st1 =>
    let st2 := commitVendor st1
    match commitSubclass st2 with
    | .error e => .error e
    | .ok st3 =>
      let st4 := commitClass st3
      .ok { vendors := st4.vendors, classes := st4.classes }

/-- `Database::parse_db` over a byte stream: classify every line, fold the
events through the aggregation loop, flush. -/
def parse_db (bytes : List Nat) : Except Err Database := do
  let evs ← tokenEvents .devices (splitChunks bytes)
  let st ← evs.foldlM processEvent initState
  finishDb st

/-- `Database::get_device_info`: strictly top-down, short-circuiting lookup
of the four name fields. -/
def getDeviceInfo (db : Database) (vendorId modelId subsysVendorId subsysModelId : Nat) :
    DeviceInfo :=
  match alGet db.vendors vendorId with
  | none => ⟨none, none, none, none⟩
  | some vendor =>
    match alGet vendor.devices modelId with
    | none => ⟨some vendor.name, none, none, none⟩
    | some device =>
      ⟨some vendor.name, some device.name,
        (alGet db.vendors subsysVendorId).map Vendor.name,
        alGet device.subdevices (subsysVendorId, subsysModelId)⟩

/-- Lowercase hex digit byte of a value below 16. -/
def hexDigitByte (d : Nat) : Nat := if d < 10 then 48 + d else 87 + d

/-- Digits of the lowercase hexadecimal rendering of a number, most
significant first; the first argument is recursion fuel. -/
def hexDigitsAux : Nat → Nat → List Nat
  | 0, _ => []
  | fuel + 1, n => if n = 0 then [] else hexDigitsAux fuel (n / 16) ++ [hexDigitByte (n % 16)]

/-- The `format!("{vendor_id:x?}")` rendering used by the streaming searches:
lowercase hexadecimal with no leading zeros ("0" for zero).  Fuel 8 covers
every `u16`/`u8` id the code ever formats. -/
def formatHex (n : Nat) : List Nat :=
  if n = 0 then [48] else hexDigitsAux 8 n

/-- The inner event loop of `find_device_name_with_reader`: after the vendor
matched, scan for a device whose raw token equals the formatted device id,
giving up at the next vendor event or at end of stream. -/
def findDevInner (did : List Nat) : List Event → Option (List Nat)
  | [] => none
  | .device tok name :: rest => if tok = did then some name else findDevInner did rest
  | .vendor _ _ :: _ => none
  | _ :: rest => findDevInner did rest

/-- The outer event loop of `find_device_name_with_reader`: scan for a vendor
whose raw token equals the formatted vendor id, then run the inner loop. -/
def findDevScan (vid did : List Nat) : List Event → Option (List Nat)
  | [] => none
  | .vendor tok _ :: rest => if tok = vid then findDevInner did rest else findDevScan vid did rest
  | _ :: rest => findDevScan vid did rest

/-- `find_device_name_with_reader` over a byte stream: the queried ids are
rendered with `format!("{:x?}")` and compared against the raw line tokens. -/
def findDeviceNameWithReader (bytes : List Nat) (vendorId deviceId : Nat) :
    Except Err (Option (List Nat)) := do
  let evs ← tokenEvents .devices (splitChunks bytes)
  .ok (findDevScan (formatHex vendorId) (formatHex deviceId) evs)

/-! ### Bit-level facts about the SIMD matcher -/

theorem revBits_lt (k n : Nat) : revBits k n < 2 ^ k := by
  induction k generalizing n with
  | zero => simp [revBits]
  | succ k ih =>
    have h1 : n % 2 ≤ 1 := Nat.le_of_lt_succ (Nat.mod_lt _ (by omega))
    have h2 := ih (n / 2)
    have : (n % 2) * 2 ^ k ≤ 2 ^ k := by
      calc (n % 2) * 2 ^ k ≤ 1 * 2 ^ k := Nat.mul_le_mul_right _ h1
      _ = 2 ^ k := Nat.one_mul _
    simp only [revBits]
    calc (n % 2) * 2 ^ k + revBits k (n / 2) < (n % 2) * 2 ^ k + 2 ^ k := by omega
    _ ≤ 2 ^ k + 2 ^ k := by omega
    _ = 2 ^ (k + 1) := by ring

theorem testBit_revBits (k n j : Nat) (h : j < k) :
    (revBits k n).testBit j = n.testBit (k - 1 - j) := by
  induction k generalizing n j with
  | zero => omega
  | succ k ih =>
    simp only [revBits]
    rcases Nat.lt_or_ge j k with hj | hj
    · have hmod : ((n % 2) * 2 ^ k + revBits k (n / 2)) % 2 ^ k = revBits k (n / 2) := by
        rw [Nat.mul_comm (n % 2) (2 ^ k), Nat.mul_add_mod,
          Nat.mod_eq_of_lt (revBits_lt k (n / 2))]
      have hT := Nat.testBit_mod_two_pow ((n % 2) * 2 ^ k + revBits k (n / 2)) k j
      rw [hmod] at hT
      have hd : decide (j < k) = true := by simp [hj]
      rw [hd, Bool.true_and] at hT
      rw [← hT, ih (n / 2) j hj]
      have hidx : k + 1 - 1 - j = (k - 1 - j) + 1 := by omega
      rw [hidx, Nat.testBit_succ]
    · have hjk : j = k := by omega
      have hdiv : ((n % 2) * 2 ^ k + revBits k (n / 2)) / 2 ^ k = n % 2 := by
        rw [Nat.mul_comm (n % 2) (2 ^ k), Nat.mul_add_div (Nat.two_pow_pos k),
          Nat.div_eq_of_lt (revBits_lt k (n / 2))]
        omega
      rw [hjk, Nat.testBit_to_div_mod, hdiv]
      have h0 : k + 1 - 1 - k = 0 := by omega
      rw [h0, Nat.testBit_zero]
      rcases Nat.mod_two_eq_zero_or_one n with h2 | h2 <;> simp [h2]

theorem testBit_revBits_ge (k n j : Nat) (h : k ≤ j) : (revBits k n).testBit j = false :=
  Nat.testBit_lt_two_pow (Nat.lt_of_lt_of_le (revBits_lt k n) (Nat.pow_le_pow_right (by omega) h))

theorem testBit_moveMask (bs : List Bool) (j : Nat) :
    (moveMask bs).testBit j = bs.getD j false := by
  induction bs generalizing j with
  | nil => simp [moveMask]
  | cons b bs ih =>
    cases j with
    | zero =>
      rw [Nat.testBit_zero]
      cases b <;> simp [moveMask, Nat.add_mul_mod_self_left]
    | succ j =>
      rw [Nat.testBit_succ]
      simp only [moveMask]
      have hdiv : ((cond b 1 0) + 2 * moveMask bs) / 2 = moveMask bs := by
        cases b <;> simp <;> omega
      rw [hdiv, ih]
      simp

theorem land_eq_right_iff (x m : Nat) :
    (x &&& m = m) ↔ ∀ i, m.testBit i = true → x.testBit i = true := by
  constructor
  · intro h i hi
    have := congrArg (fun t => Nat.testBit t i) h
    simp only [Nat.testBit_land, hi, Bool.and_true] at this
    exact this
  · intro h
    apply Nat.eq_of_testBit_eq
    intro i
    rw [Nat.testBit_land]
    cases hm : m.testBit i
    · simp
    · simp [h i hm]

theorem length_bufToVector (buf : List Nat) : (bufToVector buf).length = 16 := by
  simp only [bufToVector, List.length_append, List.length_take, List.length_replicate]
  omega

theorem getD_bufToVector (buf : List Nat) (i : Nat) (h : i < 16) :
    (bufToVector buf).getD i 0 = buf.getD i 0 := by
  simp only [bufToVector, List.getD_eq_getElem?_getD, List.getElem?_append, List.length_take,
    List.getElem?_take]
  rcases Nat.lt_or_ge i buf.length with hl | hl
  · simp [Nat.lt_min.mpr ⟨h, hl⟩, h]
  · have hnot : ¬ i < min 16 buf.length := by omega
    simp only [hnot, if_false, h, if_true]
    have hbuf : buf[i]? = none := by
      rw [List.getElem?_eq_none_iff]
      omega
    rw [hbuf]
    rcases Nat.lt_or_ge (i - min 16 buf.length) (16 - buf.length) with hr | hr
    · rw [List.getElem?_replicate, if_pos hr]
      rfl
    · have : (List.replicate (16 - buf.length) (0 : Nat))[i - min 16 buf.length]? = none := by
        rw [List.getElem?_eq_none_iff, List.length_replicate]
        omega
      rw [this]

theorem getD_zipWith_decide (xs ys : List Nat) (j : Nat) (hx : j < xs.length)
    (hy : j < ys.length) :
    (List.zipWith (fun a b => decide (a = b)) xs ys).getD j false =
      decide (xs.getD j 0 = ys.getD j 0) := by
  induction xs generalizing ys j with
  | nil => simp at hx
  | cons x xs ih =>
    cases ys with
    | nil => simp at hy
    | cons y ys =>
      cases j with
      | zero => simp
      | succ j =>
        simp only [List.zipWith_cons_cons, List.getD_cons_succ]
        exact ih ys j (by simpa using hx) (by simpa using hy)

theorem getD_cmpEq (buf needle : List Nat) (hn : needle.length = 16) (j : Nat) :
    (cmpEq (bufToVector buf) needle).getD j false =
      if j < 16 then decide (buf.getD j 0 = needle.getD j 0) else false := by
  rcases Nat.lt_or_ge j 16 with h | h
  · rw [if_pos h, cmpEq,
      getD_zipWith_decide _ _ j (by rw [length_bufToVector]; omega) (by omega),
      getD_bufToVector buf j h]
  · rw [if_neg (by omega)]
    apply List.getD_eq_default
    rw [cmpEq, List.length_zipWith, length_bufToVector, hn]
    omega

theorem matches_iff_lanes (buf needle : List Nat) (mask : Nat) (hn : needle.length = 16)
    (hhi : mask < 2 ^ 32) (hlo : ∀ i, i < 16 → mask.testBit i = false) :
    matchesPattern (bufToVector buf) needle mask = true ↔
      ∀ j, j < 16 → mask.testBit (31 - j) = true → buf.getD j 0 = needle.getD j 0 := by
  simp only [matchesPattern, decide_eq_true_eq]
  rw [land_eq_right_iff]
  constructor
  · intro h j hj hbit
    have h32 : 31 - j < 32 := by omega
    have := h (31 - j) hbit
    rw [reverseBits32, testBit_revBits 32 _ _ h32] at this
    have hidx : 32 - 1 - (31 - j) = j := by omega
    rw [hidx, testBit_moveMask, getD_cmpEq buf needle hn, if_pos hj] at this
    exact of_decide_eq_true this
  · intro h i hbit
    rcases Nat.lt_or_ge i 32 with h32 | h32
    · rcases Nat.lt_or_ge i 16 with h16 | h16
      · rw [hlo i h16] at hbit
        exact absurd hbit (by simp)
      · rw [reverseBits32, testBit_revBits 32 _ _ h32]
        have hidx : 32 - 1 - i < 16 := by omega
        rw [testBit_moveMask, getD_cmpEq buf needle hn, if_pos hidx]
        have hbit' : mask.testBit (31 - (32 - 1 - i)) = true := by
          have : 31 - (32 - 1 - i) = i := by omega
          rw [this]
          exact hbit
        exact decide_eq_true (h (32 - 1 - i) hidx hbit')
    · rw [Nat.testBit_lt_two_pow (Nat.lt_of_lt_of_le hhi (Nat.pow_le_pow_right (by omega) h32))] at hbit
      exact absurd hbit (by simp)

theorem matchClass_iff (buf : List Nat) :
    matchesPattern (bufToVector buf) classNeedle classMask = true ↔
      buf.getD 1 0 = 32 ∧ buf.getD 4 0 = 32 ∧ buf.getD 5 0 = 32 := by
  rw [matches_iff_lanes buf classNeedle classMask (by rfl) (by decide) (by decide)]
  constructor
  · intro h
    exact ⟨h 1 (by omega) (by decide), h 4 (by omega) (by decide), h 5 (by omega) (by decide)⟩
  · rintro ⟨h1, h4, h5⟩ j hj hbit
    interval_cases j <;>
      first
        | exact absurd hbit (by decide)
        | exact h1
        | exact h4
        | exact h5

theorem matchVendor_iff (buf : List Nat) :
    matchesPattern (bufToVector buf) vendorNeedle vendorMask = true ↔
      buf.getD 4 0 = 32 ∧ buf.getD 5 0 = 32 := by
  rw [matches_iff_lanes buf vendorNeedle vendorMask (by rfl) (by decide) (by decide)]
  constructor
  · intro h
    exact ⟨h 4 (by omega) (by decide), h 5 (by omega) (by decide)⟩
  · rintro ⟨h4, h5⟩ j hj hbit
    interval_cases j <;>
      first
        | exact absurd hbit (by decide)
        | exact h4
        | exact h5

theorem matchDevice_iff (buf : List Nat) :
    matchesPattern (bufToVector buf) deviceNeedle deviceMask = true ↔
      buf.getD 0 0 = 9 ∧ buf.getD 5 0 = 32 ∧ buf.getD 6 0 = 32 := by
  rw [matches_iff_lanes buf deviceNeedle deviceMask (by rfl) (by decide) (by decide)]
  constructor
  · intro h
    exact ⟨h 0 (by omega) (by decide), h 5 (by omega) (by decide), h 6 (by omega) (by decide)⟩
  · rintro ⟨h0, h5, h6⟩ j hj hbit
    interval_cases j <;>
      first
        | exact absurd hbit (by decide)
        | exact h0
        | exact h5
        | exact h6

theorem matchSubdevice_iff (buf : List Nat) :
    matchesPattern (bufToVector buf) subdeviceNeedle subdeviceMask = true ↔
      buf.getD 0 0 = 9 ∧ buf.getD 1 0 = 9 ∧ buf.getD 6 0 = 32 ∧
        buf.getD 11 0 = 32 ∧ buf.getD 12 0 = 32 := by
  rw [matches_iff_lanes buf subdeviceNeedle subdeviceMask (by rfl) (by decide) (by decide)]
  constructor
  · intro h
    exact ⟨h 0 (by omega) (by decide), h 1 (by omega) (by decide), h 6 (by omega) (by decide),
      h 11 (by omega) (by decide), h 12 (by omega) (by decide)⟩
  · rintro ⟨h0, h1, h6, h11, h12⟩ j hj hbit
    interval_cases j <;>
      first
        | exact absurd hbit (by decide)
        | exact h0
        | exact h1
        | exact h6
        | exact h11
        | exact h12

theorem matchSubclass_iff (buf : List Nat) :
    matchesPattern (bufToVector buf) subclassNeedle subclassMask = true ↔
      buf.getD 0 0 = 9 ∧ buf.getD 3 0 = 32 ∧ buf.getD 4 0 = 32 := by
  rw [matches_iff_lanes buf subclassNeedle subclassMask (by rfl) (by decide) (by decide)]
  constructor
  · intro h
    exact ⟨h 0 (by omega) (by decide), h 3 (by omega) (by decide), h 4 (by omega) (by decide)⟩
  · rintro ⟨h0, h3, h4⟩ j hj hbit
    interval_cases j <;>
      first
        | exact absurd hbit (by decide)
        | exact h0
        | exact h3
        | exact h4

theorem matchProgIf_iff (buf : List Nat) :
    matchesPattern (bufToVector buf) progIfNeedle progIfMask = true ↔
      buf.getD 0 0 = 9 ∧ buf.getD 1 0 = 9 ∧ buf.getD 4 0 = 32 ∧ buf.getD 5 0 = 32 := by
  rw [matches_iff_lanes buf progIfNeedle progIfMask (by rfl) (by decide) (by decide)]
  constructor
  · intro h
    exact ⟨h 0 (by omega) (by decide), h 1 (by omega) (by decide), h 4 (by omega) (by decide),
      h 5 (by omega) (by decide)⟩
  · rintro ⟨h0, h1, h4, h5⟩ j hj hbit
    interval_cases j <;>
      first
        | exact absurd hbit (by decide)
        | exact h0
        | exact h1
        | exact h4
        | exact h5

/-! ### Helper facts about hex digits and `parse_id` -/

theorem isHex_ranges {b : Nat} (h : isHexDigitB b = true) :
    (48 ≤ b ∧ b ≤ 57) ∨ (97 ≤ b ∧ b ≤ 102) ∨ (65 ≤ b ∧ b ≤ 70) := by
  simp only [isHexDigitB, hexDigitVal?] at h
  split_ifs at h with h1 h2 h3
  · exact Or.inl h1
  · exact Or.inr (Or.inl h2)
  · exact Or.inr (Or.inr h3)
  · simp at h

theorem hex_ne_32 {b : Nat} (h : isHexDigitB b = true) : b ≠ 32 := by
  rcases isHex_ranges h with h' | h' | h' <;> omega

theorem hex_ne_9 {b : Nat} (h : isHexDigitB b = true) : b ≠ 9 := by
  rcases isHex_ranges h with h' | h' | h' <;> omega

theorem hex_ne_35 {b : Nat} (h : isHexDigitB b = true) : b ≠ 35 := by
  rcases isHex_ranges h with h' | h' | h' <;> omega

theorem hex_ne_10 {b : Nat} (h : isHexDigitB b = true) : b ≠ 10 := by
  rcases isHex_ranges h with h' | h' | h' <;> omega

/-- Value of a hex-digit run, folded most-significant first (what both
`from_radix_16` and `from_str_radix` compute on their consumed digits). -/
def hexRunValue (l : List Nat) : Nat :=
  l.foldl (fun acc b => acc * 16 + (hexDigitVal? b).getD 0) 0

theorem fromRadix16_go_spec (cs : List Nat) (acc : Nat) :
    fromRadix16.go acc cs =
      ((cs.takeWhile isHexDigitB).foldl (fun a b => a * 16 + (hexDigitVal? b).getD 0) acc,
        (cs.takeWhile isHexDigitB).length) := by
  induction cs generalizing acc with
  | nil => simp [fromRadix16.go]
  | cons c cs ih =>
    cases hc : hexDigitVal? c with
    | none =>
      have hb : isHexDigitB c = false := by simp [isHexDigitB, hc]
      simp [fromRadix16.go, hc, List.takeWhile_cons, hb]
    | some e =>
      have hb : isHexDigitB c = true := by simp [isHexDigitB, hc]
      simp only [fromRadix16.go, hc, List.takeWhile_cons, hb, if_true, List.foldl_cons,
        List.length_cons, ih (acc * 16 + e)]
      simp [hc]

theorem fromRadix16_spec (l : List Nat) :
    fromRadix16 l = (hexRunValue (l.takeWhile isHexDigitB), (l.takeWhile isHexDigitB).length) := by
  cases l with
  | nil => simp [fromRadix16, hexRunValue]
  | cons b rest =>
    cases hb : hexDigitVal? b with
    | none =>
      have hx : isHexDigitB b = false := by simp [isHexDigitB, hb]
      simp [fromRadix16, hb, List.takeWhile_cons, hx, hexRunValue]
    | some d =>
      have hx : isHexDigitB b = true := by simp [isHexDigitB, hb]
      simp only [fromRadix16, hb, fromRadix16_go_spec rest d, List.takeWhile_cons, hx, if_true,
        hexRunValue, List.foldl_cons, List.length_cons]
      simp [hb]

/-! ### C1: get_device_info short-circuits top-down -/

/-- C1: for every database and query, `get_device_info` short-circuits
top-down: a missing vendor blanks all four fields; a present vendor with a
missing device populates only the vendor name; a present device additionally
looks the subsystem vendor up in the same top-level vendor map and the
subdevice name up under the composite key in the device's own map, each miss
giving `none` for that field only, never an error. -/
theorem getDeviceInfo_short_circuit (db : Database) (vid did svid sdid : Nat) :
    (alGet db.vendors vid = none →
      getDeviceInfo db vid did svid sdid = ⟨none, none, none, none⟩) ∧
    (∀ v, alGet db.vendors vid = some v → alGet v.devices did = none →
      getDeviceInfo db vid did svid sdid = ⟨some v.name, none, none, none⟩) ∧
    (∀ v d, alGet db.vendors vid = some v → alGet v.devices did = some d →
      getDeviceInfo db vid did svid sdid =
        ⟨some v.name, some d.name, (alGet db.vendors svid).map Vendor.name,
          alGet d.subdevices (svid, sdid)⟩) := by
  refine ⟨?_, ?_, ?_⟩ <;> intros <;> simp [getDeviceInfo, *]

/-- Concrete database used by witnesses. -/
def demoDevice : Device := ⟨[68], [((3, 4), [83])]⟩

/-- Concrete vendor used by witnesses. -/
def demoVendor : Vendor := ⟨[86], [(2, demoDevice)]⟩

/-- Concrete subsystem vendor used by witnesses. -/
def demoSubVendor : Vendor := ⟨[87], []⟩

/-- Concrete database used by witnesses. -/
def demoDb : Database := ⟨[(1, demoVendor), (3, demoSubVendor)], []⟩

theorem getDeviceInfo_short_circuit_witness :
    getDeviceInfo demoDb 1 2 3 4 = ⟨some [86], some [68], some [87], some [83]⟩ ∧
    getDeviceInfo demoDb 9 2 3 4 = ⟨none, none, none, none⟩ ∧
    getDeviceInfo demoDb 1 7 3 4 = ⟨some [86], none, none, none⟩ := by
  refine ⟨?_, ?_, ?_⟩
  · exact (getDeviceInfo_short_circuit demoDb 1 2 3 4).2.2 demoVendor demoDevice rfl rfl
  · exact (getDeviceInfo_short_circuit demoDb 9 2 3 4).1 rfl
  · exact (getDeviceInfo_short_circuit demoDb 1 7 3 4).2.1 demoVendor rfl rfl

/-! ### C8: skipped lines and end of input -/

/-- C8: `next_event` produces no event for blank lines or lines starting
with `#` (they are skipped before classification, never an error), and at
end of input (zero bytes read) it returns the no-event terminator rather
than an error. -/
theorem nextEvent_skip_and_eof (s : PSection) (c : List Nat) (rest : List (List Nat)) :
    ((c.head? = some 35 ∨ c = [10] ∨ c = []) → nextEvent s (c :: rest) = nextEvent s rest) ∧
    nextEvent s [] = .ok (none, s, []) := by
  constructor
  · intro h
    have hs : skipLine c = true := by
      rcases h with h | h | h <;> simp [skipLine, h]
    simp [nextEvent, hs]
  · rfl

theorem nextEvent_skip_and_eof_witness :
    nextEvent .devices [[35, 99, 10], [10]] = nextEvent .devices [[10]] ∧
    nextEvent .devices ([] : List (List Nat)) = .ok (none, .devices, []) := by
  exact ⟨(nextEvent_skip_and_eof .devices [35, 99, 10] [[10]]).1 (Or.inl rfl),
    (nextEvent_skip_and_eof .devices [35, 99, 10] [[10]]).2⟩

/-! ### C3: parse_id and non-hex characters -/

/-- C3 counterexample: the token `"1G34"` (bytes `[49, 71, 51, 52]`) has the
non-hex byte `'G'` in its id field, yet `parse_id` succeeds with the value of
the leading digit run `"1"` instead of failing with an integer-parse error,
refuting "id parsing succeeds only for tokens of exactly the expected field
width consisting entirely of hex digits". -/
theorem parse_id_accepts_nonhex :
    parse_id [49, 71, 51, 52] = .ok 1 ∧ isHexDigitB 71 = false := by
  exact ⟨rfl, rfl⟩

/-- C3 amended: `parse_id` fails with the integer-parse error naming the
offending token exactly when the token is empty or its first byte is not a
hex digit; whenever the first byte is a hex digit, parsing succeeds with the
value of the longest leading hex-digit run, ignoring trailing non-hex bytes
and never checking the field width. -/
theorem parse_id_first_byte (l : List Nat) :
    (l = [] → parse_id l = .error (.couldNotParseInt l)) ∧
    (∀ b rest, l = b :: rest → isHexDigitB b = false →
      parse_id l = .error (.couldNotParseInt l)) ∧
    (∀ b rest, l = b :: rest → isHexDigitB b = true →
      parse_id l = .ok (hexRunValue (l.takeWhile isHexDigitB))) := by
  refine ⟨?_, ?_, ?_⟩
  · rintro rfl
    rfl
  · rintro b rest rfl hb
    simp [parse_id, fromRadix16_spec, List.takeWhile_cons, hb]
  · rintro b rest rfl hb
    simp [parse_id, fromRadix16_spec, List.takeWhile_cons, hb]

theorem parse_id_first_byte_witness :
    parse_id [71, 49] = .error (.couldNotParseInt [71, 49]) ∧ parse_id [49, 71] = .ok 1 := by
  constructor
  · exact (parse_id_first_byte [71, 49]).2.1 71 [49] rfl rfl
  · have h := (parse_id_first_byte [49, 71]).2.2 49 [71] rfl rfl
    simpa using h

/-! ### C5: end-of-stream flush order and single commit -/

/-- C5: at end of stream `parse_db` flushes every still-open slot bottom-up
in the fixed order device-into-vendor, vendor-into-map, subclass-into-class,
class-into-map (so the committed vendor already contains the open device and
the committed class the open subclass); and on a sibling/ancestor event the
open records are committed the same way exactly once, the replacement slots
being freshly opened empty records, never a reopened committed one. -/
theorem parse_db_eos_flush (st : PState) (did vid scid cid nid : Nat) (dev : Device)
    (ven : Vendor) (sc : SubClass) (cl : Class) (tok name : List Nat) :
    (st.curDevice = some (did, dev) → st.curVendor = some (vid, ven) →
      st.curSubclass = some (scid, sc) → st.curClass = some (cid, cl) →
      finishDb st = .ok
        ⟨alInsert st.vendors vid { name := ven.name, devices := alInsert ven.devices did dev },
          alInsert st.classes cid
            { name := cl.name, subclasses := alInsert cl.subclasses scid sc }⟩) ∧
    (st.curDevice = some (did, dev) → st.curVendor = some (vid, ven) →
      fromStrRadix16 tok = some nid →
      processEvent st (.vendor tok name) = .ok { st with
        curVendor := some (nid, ⟨name, []⟩)
        curDevice := none
        vendors := alInsert st.vendors vid
          { name := ven.name, devices := alInsert ven.devices did dev } }) ∧
    (st.curDevice = some (did, dev) → st.curVendor = some (vid, ven) →
      fromStrRadix16 tok = some nid →
      processEvent st (.device tok name) = .ok { st with
        curVendor := some (vid, { name := ven.name, devices := alInsert ven.devices did dev })
        curDevice := some (nid, ⟨name, []⟩) }) := by
  refine ⟨?_, ?_, ?_⟩ <;> intros <;>
    simp [finishDb, processEvent, commitDevice, commitVendor, commitSubclass, commitClass,
      parseInt, *]

/-- Concrete aggregation state with all four slots open, used by witnesses. -/
def demoState : PState :=
  ⟨some (5, ⟨[86], []⟩), some (6, ⟨[68], []⟩), some (7, ⟨[67], []⟩), some (8, ⟨[83], []⟩),
    [], []⟩

theorem parse_db_eos_flush_witness :
    finishDb demoState =
      .ok ⟨[(5, ⟨[86], [(6, ⟨[68], []⟩)]⟩)], [(7, ⟨[67], [(8, ⟨[83], []⟩)]⟩)]⟩ ∧
    processEvent demoState (.vendor [57] [78]) = .ok
      ⟨some (9, ⟨[78], []⟩), none, some (7, ⟨[67], []⟩), some (8, ⟨[83], []⟩),
        [(5, ⟨[86], [(6, ⟨[68], []⟩)]⟩)], []⟩ := by
  constructor
  · exact (parse_db_eos_flush demoState 6 5 8 7 9 ⟨[68], []⟩ ⟨[86], []⟩ ⟨[83], []⟩ ⟨[67], []⟩
      [57] [78]).1 rfl rfl rfl rfl
  · exact (parse_db_eos_flush demoState 6 5 8 7 9 ⟨[68], []⟩ ⟨[86], []⟩ ⟨[83], []⟩ ⟨[67], []⟩
      [57] [78]).2.1 rfl rfl rfl

/-! ### C6: structural violations are fatal -/

theorem foldlM_append_except {α σ : Type} (f : σ → α → Except Err σ) (l1 l2 : List α)
    (s0 s1 : σ) (h : l1.foldlM f s0 = .ok s1) :
    (l1 ++ l2).foldlM f s0 = l2.foldlM f s1 := by
  induction l1 generalizing s0 with
  | nil =>
    simp only [List.foldlM_nil] at h
    cases h
    simp
  | cons a l1 ih =>
    simp only [List.cons_append, List.foldlM_cons] at h ⊢
    cases hf : f s0 a with
    | error e =>
      rw [hf] at h
      exact Except.noConfusion h
    | ok s' =>
      rw [hf] at h
      exact ih s' h

/-- C6: a `Subdevice` event with no open device aborts the aggregation with
the `NoCurrentDevice` parse error (and with an open device it inserts at
once into that device's subdevice map under the composite key, opening no
slot of its own); a `ProgIf` event with no open subclass aborts with the
`NoCurrentSubClass` parse error; both violations abort the whole event fold,
so no database is produced. -/
theorem subdevice_progif_require_parent (st : PState) (sv sd name tok : List Nat) (did v d : Nat)
    (dev : Device) (pre rest : List Event) (stp : PState) :
    (st.curDevice = none → processEvent st (.subdevice sv sd name) = .error .noCurrentDevice) ∧
    (st.curDevice = some (did, dev) → fromStrRadix16 sv = some v → fromStrRadix16 sd = some d →
      processEvent st (.subdevice sv sd name) = .ok { st with
        curDevice := some (did,
          { dev with subdevices := alInsert dev.subdevices (v, d) name }) }) ∧
    (st.curSubclass = none → processEvent st (.progIf tok name) = .error .noCurrentSubClass) ∧
    (pre.foldlM processEvent initState = .ok stp → stp.curDevice = none →
      (pre ++ .subdevice sv sd name :: rest).foldlM processEvent initState =
        .error .noCurrentDevice) ∧
    (pre.foldlM processEvent initState = .ok stp → stp.curSubclass = none →
      (pre ++ .progIf tok name :: rest).foldlM processEvent initState =
        .error .noCurrentSubClass) := by
  have hsub : ∀ s : PState, s.curDevice = none →
      processEvent s (.subdevice sv sd name) = .error .noCurrentDevice := by
    intro s hs
    rw [processEvent.eq_def]
    simp [hs]
  have hpif : ∀ s : PState, s.curSubclass = none →
      processEvent s (.progIf tok name) = .error .noCurrentSubClass := by
    intro s hs
    rw [processEvent.eq_def]
    simp [hs]
  refine ⟨hsub st, ?_, hpif st, ?_, ?_⟩
  · intro h1 h2 h3
    rw [processEvent.eq_def]
    simp [parseInt, *]
  · intro hfold hnone
    rw [foldlM_append_except _ _ _ _ _ hfold, List.foldlM_cons, hsub stp hnone]
    rfl
  · intro hfold hnone
    rw [foldlM_append_except _ _ _ _ _ hfold, List.foldlM_cons, hpif stp hnone]
    rfl

theorem subdevice_progif_require_parent_witness :
    processEvent initState (.subdevice [49] [50] [83]) = .error .noCurrentDevice ∧
    ([Event.vendor [49] [86], .subdevice [49] [50] [83]].foldlM processEvent initState =
      .error .noCurrentDevice) ∧
    parse_db [9, 9, 49, 100, 97, 50, 32, 101, 51, 56, 55, 32, 32, 83, 10] =
      .error .noCurrentDevice ∧
    parse_db [67, 32, 48, 48, 32, 32, 85, 10, 9, 9, 48, 48, 32, 32, 80, 10] =
      .error .noCurrentSubClass := by
  refine ⟨?_, ?_, rfl, rfl⟩
  · exact (subdevice_progif_require_parent initState [49] [50] [83] [49] 0 0 0 ⟨[], []⟩ [] []
      initState).1 rfl
  · exact (subdevice_progif_require_parent initState [49] [50] [83] [49] 0 0 0 ⟨[], []⟩
      [Event.vendor [49] [86]] [] ⟨some (1, ⟨[86], []⟩), none, none, none, [], []⟩).2.2.2.1
      rfl rfl

/-! ### C7: streaming device search scope -/

/-- Vendor-event test. -/
def isVendorEv : Event → Bool
  | .vendor _ _ => true
  | _ => false

/-- Name of a device event when its raw token matches the queried id. -/
def deviceNameIf (did : List Nat) : Event → Option (List Nat)
  | .device tok name => if tok = did then some name else none
  | _ => none

/-- Modelled from the spec: the events strictly after the first `Vendor`
event whose raw token matches the queried vendor id, if any. -/
def afterVendor (vid : List Nat) : List Event → Option (List Event)
  | [] => none
  | .vendor tok _ :: rest => if tok = vid then some rest else afterVendor vid rest
  | _ :: rest => afterVendor vid rest

/-- Modelled from the spec: upon finding the matching vendor, the result is
the name of the first matching `Device` event among the events before the
next `Vendor` event (the matched vendor's own section); a new vendor or the
end of the stream before a match gives no result. -/
def specFindDevice (vid did : List Nat) (evs : List Event) : Option (List Nat) :=
  (afterVendor vid evs).bind
    (fun rest => (rest.takeWhile (fun e => !isVendorEv e)).findSome? (deviceNameIf did))

theorem findDevInner_spec (did : List Nat) (rest : List Event) :
    findDevInner did rest =
      (rest.takeWhile (fun e => !isVendorEv e)).findSome? (deviceNameIf did) := by
  induction rest with
  | nil => rfl
  | cons e rest ih =>
    cases e with
    | vendor tok name => rfl
    | device tok name =>
      by_cases htok : tok = did
      · simp [findDevInner, htok, List.takeWhile_cons, isVendorEv, List.findSome?, deviceNameIf]
      · simp [findDevInner, htok, List.takeWhile_cons, isVendorEv, List.findSome?, deviceNameIf,
          ih]
    | subdevice sv sd name =>
      simp [findDevInner, List.takeWhile_cons, isVendorEv, List.findSome?, deviceNameIf, ih]
    | classEv tok name =>
      simp [findDevInner, List.takeWhile_cons, isVendorEv, List.findSome?, deviceNameIf, ih]
    | subclassEv tok name =>
      simp [findDevInner, List.takeWhile_cons, isVendorEv, List.findSome?, deviceNameIf, ih]
    | progIf tok name =>
      simp [findDevInner, List.takeWhile_cons, isVendorEv, List.findSome?, deviceNameIf, ih]

theorem findDevScan_spec (vid did : List Nat) (evs : List Event) :
    findDevScan vid did evs = specFindDevice vid did evs := by
  induction evs with
  | nil => rfl
  | cons e evs ih =>
    cases e with
    | vendor tok name =>
      by_cases htok : tok = vid
      · simp [findDevScan, htok, specFindDevice, afterVendor, findDevInner_spec]
      · simpa [findDevScan, htok, specFindDevice, afterVendor] using ih
    | device tok name => simpa [findDevScan, specFindDevice, afterVendor] using ih
    | subdevice sv sd name => simpa [findDevScan, specFindDevice, afterVendor] using ih
    | classEv tok name => simpa [findDevScan, specFindDevice, afterVendor] using ih
    | subclassEv tok name => simpa [findDevScan, specFindDevice, afterVendor] using ih
    | progIf tok name => simpa [findDevScan, specFindDevice, afterVendor] using ih

/-- Concrete event stream used by C7: vendor 0x1001's section holds only
device 0x1304, and device id 0x1306 appears only under vendor 0x1002. -/
def demoEvents : List Event :=
  [.vendor [49, 48, 48, 49] [65], .device [49, 51, 48, 52] [66],
    .vendor [49, 48, 48, 50] [67], .device [49, 51, 48, 54] [75, 97, 118, 101, 114, 105]]

/-- C7: the streaming device search returns the name of the first matching
device event after the matching vendor event and before the next vendor
event, and absence (not an error) when a new vendor arrives or the stream
ends first; in particular a device id that only occurs under a different
vendor's section is not found: on the demo stream the query
(0x1001, 0x1306) is absent while (0x1002, 0x1306) finds "Kaveri". -/
theorem find_device_name_scan (evs : List Event) (vid did : Nat) :
    findDevScan (formatHex vid) (formatHex did) evs =
      specFindDevice (formatHex vid) (formatHex did) evs ∧
    findDevScan (formatHex 4097) (formatHex 4870) demoEvents = none ∧
    findDevScan (formatHex 4098) (formatHex 4870) demoEvents =
      some [75, 97, 118, 101, 114, 105] := by
  exact ⟨findDevScan_spec _ _ evs, rfl, rfl⟩

/-! ### C2: streaming search vs materialized query on leading-zero ids -/

/-- Byte stream `"0001  V\n\t0001  D\n"`: one vendor and one device whose
4-hex-digit tokens carry leading zeros. -/
def leadingZeroStream : List Nat :=
  [48, 48, 48, 49, 32, 32, 86, 10, 9, 48, 48, 48, 49, 32, 32, 68, 10]

/-- C2 (evaluation at the failing input): the stream parses without error
and contains the pair (vendor 1, device 1), whose tokens are written
`"0001"`; the materialized path parses the tokens as integers and finds the
device name `"D"`, while the streaming search renders the queried id 1 as
the unpadded string `"1"` (byte 49), never matches the token `"0001"`, and
reports the pair absent.  The two paths disagree on a pair present in the
stream, against the claim. -/
theorem streaming_vs_database_leading_zeros :
    (parse_db leadingZeroStream).map (fun db => (getDeviceInfo db 1 1 0 0).deviceName) =
      .ok (some [68]) ∧
    findDeviceNameWithReader leadingZeroStream 1 1 = .ok none ∧
    formatHex 1 = [49] := by
  exact ⟨rfl, rfl, rfl⟩

/-! ### C4: the class-section marker and the section state machine -/

/-- Device-hierarchy event test (vendor, device or subdevice). -/
def isDeviceHier : Event → Bool
  | .vendor _ _ => true
  | .device _ _ => true
  | .subdevice _ _ _ => true
  | _ => false

/-- Class-event test. -/
def isClassEvent : Event → Bool
  | .classEv _ _ => true
  | _ => false

theorem take2_eq {buf : List Nat} {a b : Nat} (h : buf.take 2 = [a, b]) :
    buf.getD 0 0 = a ∧ buf.getD 1 0 = b := by
  cases buf with
  | nil => simp at h
  | cons x t =>
    cases t with
    | nil => simp at h
    | cons y t' =>
      simp [List.take] at h
      simp [h.1, h.2]

theorem classify_classes_result (buf : List Nat) (ev : Event) (s' : PSection)
    (h : classify .classes buf = .ok (ev, s')) :
    s' = .classes ∧ isDeviceHier ev = false := by
  simp only [classify] at h
  split_ifs at h with h1 h2 h3
  · cases hu : utf8Name (buf.drop 6) with
    | error e => rw [hu] at h; exact Except.noConfusion h
    | ok name => rw [hu] at h; cases h; exact ⟨rfl, rfl⟩
  · cases hu : utf8Name (buf.drop 5) with
    | error e => rw [hu] at h; exact Except.noConfusion h
    | ok name => rw [hu] at h; cases h; exact ⟨rfl, rfl⟩
  · cases hu : utf8Name (buf.drop 6) with
    | error e => rw [hu] at h; exact Except.noConfusion h
    | ok name => rw [hu] at h; cases h; exact ⟨rfl, rfl⟩

theorem classify_devices_section (buf : List Nat) (ev : Event) (s' : PSection)
    (h : classify .devices buf = .ok (ev, s')) :
    (s' = .classes ∧ isClassEvent ev = true) ∨ (s' = .devices ∧ isClassEvent ev = false) := by
  simp only [classify] at h
  split_ifs at h with h1 h2 h3 h4
  · cases hu : utf8Name (buf.drop 6) with
    | error e => rw [hu] at h; exact Except.noConfusion h
    | ok name => rw [hu] at h; cases h; exact Or.inl ⟨rfl, rfl⟩
  · cases hu : utf8Name (buf.drop 7) with
    | error e => rw [hu] at h; exact Except.noConfusion h
    | ok name => rw [hu] at h; cases h; exact Or.inr ⟨rfl, rfl⟩
  · cases hu : utf8Name (buf.drop 6) with
    | error e => rw [hu] at h; exact Except.noConfusion h
    | ok name => rw [hu] at h; cases h; exact Or.inr ⟨rfl, rfl⟩
  · cases hu : utf8Name (buf.drop 13) with
    | error e => rw [hu] at h; exact Except.noConfusion h
    | ok name => rw [hu] at h; cases h; exact Or.inr ⟨rfl, rfl⟩

theorem classify_marker_class (s : PSection) (buf : List Nat) (ev : Event) (s' : PSection)
    (h : classify s buf = .ok (ev, s'))
    (hm : buf.take 2 = [67, 32] ∨ buf.take 2 = [99, 32]) :
    isClassEvent ev = true ∧ s' = .classes := by
  have h01 : (buf.getD 0 0 = 67 ∨ buf.getD 0 0 = 99) ∧ buf.getD 1 0 = 32 := by
    rcases hm with hm | hm
    · exact ⟨Or.inl (take2_eq hm).1, (take2_eq hm).2⟩
    · exact ⟨Or.inr (take2_eq hm).1, (take2_eq hm).2⟩
  cases s with
  | classes =>
    have hres := classify_classes_result buf ev s' h
    refine ⟨?_, hres.1⟩
    simp only [classify] at h
    split_ifs at h with h1 h2 h3
    · cases hu : utf8Name (buf.drop 6) with
      | error e => rw [hu] at h; exact Except.noConfusion h
      | ok name => rw [hu] at h; cases h; rfl
    · rw [matchSubclass_iff] at h2
      have h9 : buf.getD 0 0 ≠ 9 := by
        rcases h01.1 with h0 | h0 <;> omega
      exact absurd h2.1 h9
    · rw [matchProgIf_iff] at h3
      have h9 : buf.getD 0 0 ≠ 9 := by
        rcases h01.1 with h0 | h0 <;> omega
      exact absurd h3.1 h9
  | devices =>
    simp only [classify] at h
    split_ifs at h with h1 h2 h3 h4
    · cases hu : utf8Name (buf.drop 6) with
      | error e => rw [hu] at h; exact Except.noConfusion h
      | ok name => rw [hu] at h; cases h; exact ⟨rfl, rfl⟩
    · rw [matchDevice_iff] at h2
      have h9 : buf.getD 0 0 ≠ 9 := by
        rcases h01.1 with h0 | h0 <;> omega
      exact absurd h2.1 h9
    · rw [matchClass_iff] at h1
      rw [matchVendor_iff] at h3
      exact absurd ⟨h01.2, h3.1, h3.2⟩ h1
    · rw [matchSubdevice_iff] at h4
      have h9 : buf.getD 0 0 ≠ 9 := by
        rcases h01.1 with h0 | h0 <;> omega
      exact absurd h4.1 h9

theorem classify_class_line (s : PSection) (c h1 h2 : Nat) (name : List Nat)
    (hc : c = 67 ∨ c = 99) (hname : validUtf8 name = true) :
    classify s (c :: 32 :: h1 :: h2 :: 32 :: 32 :: name) =
      .ok (.classEv [h1, h2] name, .classes) := by
  have hcls : matchesPattern (bufToVector (c :: 32 :: h1 :: h2 :: 32 :: 32 :: name))
      classNeedle classMask = true := by
    rw [matchClass_iff]
    exact ⟨rfl, rfl, rfl⟩
  cases s <;> simp [classify, hcls, utf8Name, hname]

theorem tokenEvents_cons_skip (s : PSection) (c : List Nat) (rest : List (List Nat))
    (h : skipLine c = true) : tokenEvents s (c :: rest) = tokenEvents s rest := by
  simp [tokenEvents, h]

theorem tokenEvents_cons_line (s : PSection) (c : List Nat) (rest : List (List Nat))
    (ev : Event) (s' : PSection) (hns : skipLine c = false)
    (hcl : classify s c.dropLast = .ok (ev, s')) :
    tokenEvents s (c :: rest) =
      match tokenEvents s' rest with
      | .error e => .error e
      | .ok evs => .ok (ev :: evs) := by
  simp [tokenEvents, hns, hcl]

theorem tokenEvents_cons_err (s : PSection) (c : List Nat) (rest : List (List Nat)) (e : Err)
    (hns : skipLine c = false) (hcl : classify s c.dropLast = .error e) :
    tokenEvents s (c :: rest) = .error e := by
  simp [tokenEvents, hns, hcl]

theorem tokenEvents_classes_no_device (chunks : List (List Nat)) (evs : List Event)
    (h : tokenEvents .classes chunks = .ok evs) : ∀ e ∈ evs, isDeviceHier e = false := by
  induction chunks generalizing evs with
  | nil =>
    simp only [tokenEvents] at h
    cases h
    simp
  | cons c rest ih =>
    cases hsk : skipLine c with
    | true =>
      rw [tokenEvents_cons_skip _ _ _ hsk] at h
      exact ih evs h
    | false =>
      cases hcl : classify .classes c.dropLast with
      | error e =>
        rw [tokenEvents_cons_err _ _ _ _ hsk hcl] at h
        exact Except.noConfusion h
      | ok p =>
        obtain ⟨ev, s'⟩ := p
        obtain ⟨hs', hev⟩ := classify_classes_result _ _ _ hcl
        subst hs'
        rw [tokenEvents_cons_line _ _ _ _ _ hsk hcl] at h
        cases hrest : tokenEvents .classes rest with
        | error e =>
          rw [hrest] at h
          exact Except.noConfusion h
        | ok evs' =>
          rw [hrest] at h
          cases h
          intro e he
          rcases List.mem_cons.mp he with rfl | he'
          · exact hev
          · exact ih evs' hrest e he'

/-- C4: a line beginning with the class marker `"C "` (or `"c "`) that
classifies at all yields a `Class` event with the section state flipped to
the class section, whatever the prior section; a well-formed class line is
accepted in either section; the flip is the only state transition (every
other line leaves the section unchanged, and the class section never
returns to the device section); and from the class section onward no
`Vendor`, `Device` or `Subdevice` event is ever emitted again. -/
theorem class_marker_transition (s : PSection) (buf : List Nat) (ev : Event) (s' : PSection)
    (c h1 h2 : Nat) (name : List Nat) (chunks : List (List Nat)) (evs : List Event) :
    (classify s buf = .ok (ev, s') → buf.take 2 = [67, 32] ∨ buf.take 2 = [99, 32] →
      isClassEvent ev = true ∧ s' = .classes) ∧
    (c = 67 ∨ c = 99 → validUtf8 name = true →
      classify s (c :: 32 :: h1 :: h2 :: 32 :: 32 :: name) =
        .ok (.classEv [h1, h2] name, .classes)) ∧
    (classify s buf = .ok (ev, s') →
      s' = s ∨ (s = .devices ∧ s' = .classes ∧ isClassEvent ev = true)) ∧
    (tokenEvents .classes chunks = .ok evs → ∀ e ∈ evs, isDeviceHier e = false) := by
  refine ⟨fun h hm => classify_marker_class s buf ev s' h hm,
    fun hc hname => classify_class_line s c h1 h2 name hc hname, ?_,
    fun h => tokenEvents_classes_no_device chunks evs h⟩
  intro h
  cases s with
  | classes => exact Or.inl (classify_classes_result buf ev s' h).1
  | devices =>
    rcases classify_devices_section buf ev s' h with ⟨hs', hev⟩ | ⟨hs', _⟩
    · exact Or.inr ⟨rfl, hs', hev⟩
    · exact Or.inl hs'

theorem class_marker_transition_witness :
    classify .devices [99, 32, 48, 49, 32, 32, 78] = .ok (.classEv [48, 49] [78], .classes) ∧
    classify .classes [67, 32, 48, 50, 32, 32, 79] = .ok (.classEv [48, 50] [79], .classes) := by
  constructor
  · exact (class_marker_transition .devices [] (.vendor [] []) .devices 99 48 49 [78] []
      []).2.1 (Or.inr rfl) rfl
  · exact (class_marker_transition .classes [] (.vendor [] []) .devices 67 48 50 [79] []
      []).2.1 (Or.inl rfl) rfl

/-! ### C9: fast-path vs scalar classification -/

theorem bool_eq_false {b : Bool} (h : ¬ b = true) : b = false := by
  cases b
  · rfl
  · exact absurd rfl h

/-- Modelled from the spec: the scalar (sequential-scan) classification
contract (§4.1, §6): record shape read off the leading bytes in order —
leading-whitespace depth, exact-width hex id tokens, the two-space delimiter
right after the id field — with the rest of the line verbatim as the
UTF-8-validated name, and the class-marker line (`"C "` / `"c "`) recognized
in either section, switching to the class section. -/
def scalarClassify (s : PSection) (l : List Nat) : Option (Event × PSection) :=
  if (l.getD 0 0 = 67 ∨ l.getD 0 0 = 99) ∧ l.getD 1 0 = 32 ∧
      isHexDigitB (l.getD 2 0) = true ∧ isHexDigitB (l.getD 3 0) = true ∧
      l.getD 4 0 = 32 ∧ l.getD 5 0 = 32 ∧ validUtf8 (l.drop 6) = true then
    some (.classEv ((l.drop 2).take 2) (l.drop 6), .classes)
  else
    match s with
    | .devices =>
      if isHexDigitB (l.getD 0 0) = true ∧ isHexDigitB (l.getD 1 0) = true ∧
          isHexDigitB (l.getD 2 0) = true ∧ isHexDigitB (l.getD 3 0) = true ∧
          l.getD 4 0 = 32 ∧ l.getD 5 0 = 32 ∧ validUtf8 (l.drop 6) = true then
        some (.vendor (l.take 4) (l.drop 6), .devices)
      else if l.getD 0 0 = 9 ∧ isHexDigitB (l.getD 1 0) = true ∧
          isHexDigitB (l.getD 2 0) = true ∧ isHexDigitB (l.getD 3 0) = true ∧
          isHexDigitB (l.getD 4 0) = true ∧ l.getD 5 0 = 32 ∧ l.getD 6 0 = 32 ∧
          validUtf8 (l.drop 7) = true then
        some (.device ((l.drop 1).take 4) (l.drop 7), .devices)
      else if l.getD 0 0 = 9 ∧ l.getD 1 0 = 9 ∧ isHexDigitB (l.getD 2 0) = true ∧
          isHexDigitB (l.getD 3 0) = true ∧ isHexDigitB (l.getD 4 0) = true ∧
          isHexDigitB (l.getD 5 0) = true ∧ l.getD 6 0 = 32 ∧
          isHexDigitB (l.getD 7 0) = true ∧ isHexDigitB (l.getD 8 0) = true ∧
          isHexDigitB (l.getD 9 0) = true ∧ isHexDigitB (l.getD 10 0) = true ∧
          l.getD 11 0 = 32 ∧ l.getD 12 0 = 32 ∧ validUtf8 (l.drop 13) = true then
        some (.subdevice ((l.drop 2).take 4) ((l.drop 7).take 4) (l.drop 13), .devices)
      else none
    | .classes =>
      if l.getD 0 0 = 9 ∧ isHexDigitB (l.getD 1 0) = true ∧ isHexDigitB (l.getD 2 0) = true ∧
          l.getD 3 0 = 32 ∧ l.getD 4 0 = 32 ∧ validUtf8 (l.drop 5) = true then
        some (.subclassEv ((l.drop 1).take 2) (l.drop 5), .classes)
      else if l.getD 0 0 = 9 ∧ l.getD 1 0 = 9 ∧ isHexDigitB (l.getD 2 0) = true ∧
          isHexDigitB (l.getD 3 0) = true ∧ l.getD 4 0 = 32 ∧ l.getD 5 0 = 32 ∧
          validUtf8 (l.drop 6) = true then
        some (.progIf ((l.drop 2).take 2) (l.drop 6), .classes)
      else none

theorem scalar_subsumed (s : PSection) (l : List Nat) (r : Event × PSection)
    (h : scalarClassify s l = some r) : classify s l = .ok r := by
  cases s with
  | devices =>
    simp only [scalarClassify] at h
    split_ifs at h with hM hV hD hS
    · cases h
      have hcls : matchesPattern (bufToVector l) classNeedle classMask = true := by
        rw [matchClass_iff]
        exact ⟨hM.2.1, hM.2.2.2.2.1, hM.2.2.2.2.2.1⟩
      simp [classify, hcls, utf8Name, hM.2.2.2.2.2.2]
    · cases h
      have hcls : matchesPattern (bufToVector l) classNeedle classMask = false :=
        bool_eq_false fun hc => hex_ne_32 hV.2.1 ((matchClass_iff l).mp hc).1
      have hdev : matchesPattern (bufToVector l) deviceNeedle deviceMask = false :=
        bool_eq_false fun hc => hex_ne_9 hV.1 ((matchDevice_iff l).mp hc).1
      have hven : matchesPattern (bufToVector l) vendorNeedle vendorMask = true := by
        rw [matchVendor_iff]
        exact ⟨hV.2.2.2.2.1, hV.2.2.2.2.2.1⟩
      simp [classify, hcls, hdev, hven, utf8Name, hV.2.2.2.2.2.2]
    · cases h
      have hcls : matchesPattern (bufToVector l) classNeedle classMask = false :=
        bool_eq_false fun hc => hex_ne_32 hD.2.1 ((matchClass_iff l).mp hc).1
      have hdev : matchesPattern (bufToVector l) deviceNeedle deviceMask = true := by
        rw [matchDevice_iff]
        exact ⟨hD.1, hD.2.2.2.2.2.1, hD.2.2.2.2.2.2.1⟩
      simp [classify, hcls, hdev, utf8Name, hD.2.2.2.2.2.2.2]
    · cases h
      obtain ⟨s0, s1, s2, s3, s4, s5, s6, s7, s8, s9, s10, s11, s12, sutf⟩ := hS
      have hcls : matchesPattern (bufToVector l) classNeedle classMask = false :=
        bool_eq_false fun hc => by
          have h32 := ((matchClass_iff l).mp hc).1
          rw [s1] at h32
          omega
      have hdev : matchesPattern (bufToVector l) deviceNeedle deviceMask = false :=
        bool_eq_false fun hc => hex_ne_32 s5 ((matchDevice_iff l).mp hc).2.1
      have hven : matchesPattern (bufToVector l) vendorNeedle vendorMask = false :=
        bool_eq_false fun hc => hex_ne_32 s4 ((matchVendor_iff l).mp hc).1
      have hsub : matchesPattern (bufToVector l) subdeviceNeedle subdeviceMask = true := by
        rw [matchSubdevice_iff]
        exact ⟨s0, s1, s6, s11, s12⟩
      simp [classify, hcls, hdev, hven, hsub, utf8Name, sutf]
  | classes =>
    simp only [scalarClassify] at h
    split_ifs at h with hM hSC hPI
    · cases h
      have hcls : matchesPattern (bufToVector l) classNeedle classMask = true := by
        rw [matchClass_iff]
        exact ⟨hM.2.1, hM.2.2.2.2.1, hM.2.2.2.2.2.1⟩
      simp [classify, hcls, utf8Name, hM.2.2.2.2.2.2]
    · cases h
      have hcls : matchesPattern (bufToVector l) classNeedle classMask = false :=
        bool_eq_false fun hc => hex_ne_32 hSC.2.1 ((matchClass_iff l).mp hc).1
      have hsc : matchesPattern (bufToVector l) subclassNeedle subclassMask = true := by
        rw [matchSubclass_iff]
        exact ⟨hSC.1, hSC.2.2.2.1, hSC.2.2.2.2.1⟩
      simp [classify, hcls, hsc, utf8Name, hSC.2.2.2.2.2]
    · cases h
      have hcls : matchesPattern (bufToVector l) classNeedle classMask = false :=
        bool_eq_false fun hc => by
          have h32 := ((matchClass_iff l).mp hc).1
          rw [hPI.2.1] at h32
          omega
      have hsc : matchesPattern (bufToVector l) subclassNeedle subclassMask = false :=
        bool_eq_false fun hc => hex_ne_32 hPI.2.2.2.1 ((matchSubclass_iff l).mp hc).2.1
      have hpi : matchesPattern (bufToVector l) progIfNeedle progIfMask = true := by
        rw [matchProgIf_iff]
        exact ⟨hPI.1, hPI.2.1, hPI.2.2.2.2.1, hPI.2.2.2.2.2.1⟩
      simp [classify, hcls, hsc, hpi, utf8Name, hPI.2.2.2.2.2.2]

/-- C9: the comparison window of `buf_to_vector` carries exactly the line's
own bytes, logically zero-padded past the end of a short line (so no read
ever goes past the line buffer), and on every line the scalar classification
contract accepts, the fast-path classifier produces the same event with the
same field boundaries and the same resulting section. -/
theorem fast_path_scalar_agreement (buf l : List Nat) (i : Nat) (s : PSection)
    (r : Event × PSection) :
    (i < 16 → (bufToVector buf).getD i 0 = if i < buf.length then buf.getD i 0 else 0) ∧
    (scalarClassify s l = some r → classify s l = .ok r) := by
  constructor
  · intro hi
    rw [getD_bufToVector buf i hi]
    rcases Nat.lt_or_ge i buf.length with h | h
    · rw [if_pos h]
    · rw [if_neg (by omega), List.getD_eq_default _ _ h]
  · exact scalar_subsumed s l r

theorem fast_path_scalar_agreement_witness :
    (bufToVector [49, 48]).getD 5 0 = 0 ∧
    classify .devices [49, 48, 48, 50, 32, 32, 65] =
      .ok (.vendor [49, 48, 48, 50] [65], .devices) := by
  constructor
  · have h := (fast_path_scalar_agreement [49, 48] [] 5 .devices
      (.vendor [] [], .devices)).1 (by omega)
    simpa using h
  · exact (fast_path_scalar_agreement [] [49, 48, 48, 50, 32, 32, 65] 0 .devices
      (.vendor [49, 48, 48, 50] [65], .devices)).2 rfl

/-! ### C10: stripping the last byte of an unterminated final line -/

theorem splitChunksAux_no_newline (l : List Nat) (acc : List Nat) (h : ¬ (10 : Nat) ∈ l)
    (hne : l ≠ [] ∨ acc ≠ []) : splitChunksAux l acc = [acc.reverse ++ l] := by
  induction l generalizing acc with
  | nil =>
    rcases hne with hl | hacc
    · exact absurd rfl hl
    · simp [splitChunksAux, List.isEmpty_iff, hacc]
  | cons b bs ih =>
    have hb : b ≠ 10 := fun hb => h (hb ▸ List.mem_cons_self b bs)
    have hbs : ¬ (10 : Nat) ∈ bs := fun hm => h (List.mem_cons_of_mem b hm)
    simp only [splitChunksAux, if_neg hb]
    rw [ih (b :: acc) hbs (Or.inr (by simp))]
    simp

theorem splitChunksAux_newline (l rest acc : List Nat) (h : ¬ (10 : Nat) ∈ l) :
    splitChunksAux (l ++ 10 :: rest) acc =
      (acc.reverse ++ l ++ [10]) :: splitChunksAux rest [] := by
  induction l generalizing acc with
  | nil => simp [splitChunksAux]
  | cons b bs ih =>
    have hb : b ≠ 10 := fun hb => h (hb ▸ List.mem_cons_self b bs)
    have hbs : ¬ (10 : Nat) ∈ bs := fun hm => h (List.mem_cons_of_mem b hm)
    simp only [List.cons_append, splitChunksAux, if_neg hb, List.append_eq]
    rw [ih (b :: acc) hbs]
    simp

theorem splitChunks_single (l : List Nat) (h : ¬ (10 : Nat) ∈ l) (hne : l ≠ []) :
    splitChunks l = [l] := by
  rw [splitChunks, splitChunksAux_no_newline l [] h (Or.inl hne)]
  simp

theorem splitChunks_terminated (l : List Nat) (h : ¬ (10 : Nat) ∈ l) :
    splitChunks (l ++ [10]) = [l ++ [10]] := by
  rw [splitChunks, show l ++ [10] = l ++ 10 :: [] from rfl, splitChunksAux_newline l [] [] h]
  simp [splitChunksAux]

theorem classify_vendor_line (h1 h2 h3 h4 : Nat) (name : List Nat)
    (hh1 : isHexDigitB h1 = true) (hh2 : isHexDigitB h2 = true)
    (hname : validUtf8 name = true) :
    classify .devices (h1 :: h2 :: h3 :: h4 :: 32 :: 32 :: name) =
      .ok (.vendor [h1, h2, h3, h4] name, .devices) := by
  have hcls : matchesPattern (bufToVector (h1 :: h2 :: h3 :: h4 :: 32 :: 32 :: name))
      classNeedle classMask = false :=
    bool_eq_false fun hc => hex_ne_32 hh2 ((matchClass_iff _).mp hc).1
  have hdev : matchesPattern (bufToVector (h1 :: h2 :: h3 :: h4 :: 32 :: 32 :: name))
      deviceNeedle deviceMask = false :=
    bool_eq_false fun hc => hex_ne_9 hh1 ((matchDevice_iff _).mp hc).1
  have hven : matchesPattern (bufToVector (h1 :: h2 :: h3 :: h4 :: 32 :: 32 :: name))
      vendorNeedle vendorMask = true := by
    rw [matchVendor_iff]
    exact ⟨rfl, rfl⟩
  simp [classify, hcls, hdev, hven, utf8Name, hname]

/-- C10: `next_event` strips the last byte of the line buffer before
classifying, whether or not the buffer ends in a newline.  A vendor line
terminated by a newline keeps its whole name; the same final line without
the newline loses the name's last byte; and a one-byte unterminated final
line is classified from the empty slice, which matches no line shape. -/
theorem final_line_truncation (h1 h2 h3 h4 b : Nat) (name : List Nat)
    (hh1 : isHexDigitB h1 = true) (hh2 : isHexDigitB h2 = true)
    (hh3 : isHexDigitB h3 = true) (hh4 : isHexDigitB h4 = true)
    (hnl : ¬ (10 : Nat) ∈ name) (hne : name ≠ [])
    (hval : validUtf8 name = true) (hvalDrop : validUtf8 name.dropLast = true)
    (hb10 : b ≠ 10) (hb35 : b ≠ 35) :
    tokenEvents .devices (splitChunks ([h1, h2, h3, h4, 32, 32] ++ name ++ [10])) =
      .ok [.vendor [h1, h2, h3, h4] name] ∧
    tokenEvents .devices (splitChunks ([h1, h2, h3, h4, 32, 32] ++ name)) =
      .ok [.vendor [h1, h2, h3, h4] name.dropLast] ∧
    tokenEvents .devices (splitChunks [b]) = .error (.couldNotMatchDeviceLine []) := by
  have hnotin : ¬ (10 : Nat) ∈ [h1, h2, h3, h4, 32, 32] ++ name := by
    intro hm
    rcases List.mem_append.mp hm with hm | hm
    · have e1 := hex_ne_10 hh1
      have e2 := hex_ne_10 hh2
      have e3 := hex_ne_10 hh3
      have e4 := hex_ne_10 hh4
      simp [List.mem_cons] at hm
      rcases hm with h | h | h | h | h | h <;> omega
    · exact hnl hm
  have hskipV : skipLine (h1 :: h2 :: h3 :: h4 :: 32 :: 32 :: name) = false := by
    simp [skipLine, hex_ne_35 hh1, hex_ne_10 hh1]
  refine ⟨?_, ?_, ?_⟩
  · rw [splitChunks_terminated _ hnotin]
    have hform : ([h1, h2, h3, h4, 32, 32] ++ name) ++ [10] =
        h1 :: h2 :: h3 :: h4 :: 32 :: 32 :: (name ++ [10]) := by
      simp
    have hskip : skipLine (([h1, h2, h3, h4, 32, 32] ++ name) ++ [10]) = false := by
      rw [hform]
      simp [skipLine, hex_ne_35 hh1, hex_ne_10 hh1]
    have hdrop : (([h1, h2, h3, h4, 32, 32] ++ name) ++ [10]).dropLast =
        h1 :: h2 :: h3 :: h4 :: 32 :: 32 :: name := by
      rw [List.dropLast_concat]
      simp
    rw [tokenEvents_cons_line _ _ _ _ _ hskip (by
      rw [hdrop]
      exact classify_vendor_line h1 h2 h3 h4 name hh1 hh2 hval)]
    simp [tokenEvents]
  · rw [splitChunks_single _ hnotin (by simp)]
    have hform : [h1, h2, h3, h4, 32, 32] ++ name =
        h1 :: h2 :: h3 :: h4 :: 32 :: 32 :: name := by
      simp
    have hdrop : ([h1, h2, h3, h4, 32, 32] ++ name).dropLast =
        h1 :: h2 :: h3 :: h4 :: 32 :: 32 :: name.dropLast := by
      rw [List.dropLast_append_of_ne_nil _ hne]
      simp
    rw [hform, tokenEvents_cons_line _ _ _ _ _ hskipV (by
      rw [show (h1 :: h2 :: h3 :: h4 :: 32 :: 32 :: name).dropLast =
        h1 :: h2 :: h3 :: h4 :: 32 :: 32 :: name.dropLast from by
          rw [← hform, hdrop]]
      exact classify_vendor_line h1 h2 h3 h4 name.dropLast hh1 hh2 hvalDrop)]
    simp [tokenEvents]
  · rw [splitChunks_single [b]
      (by intro hm; exact hb10 (List.mem_singleton.mp hm).symm) (by simp)]
    have hskip : skipLine [b] = false := by
      simp [skipLine, hb35, hb10]
    have hdropb : [b].dropLast = ([] : List Nat) := rfl
    have hcl : classify .devices ([b].dropLast) = .error (.couldNotMatchDeviceLine []) := by
      rw [hdropb]
      exact rfl
    exact tokenEvents_cons_err .devices [b] [] (.couldNotMatchDeviceLine []) hskip hcl

theorem final_line_truncation_witness :
    tokenEvents .devices (splitChunks [49, 48, 48, 50, 32, 32, 65, 66, 10]) =
      .ok [.vendor [49, 48, 48, 50] [65, 66]] ∧
    tokenEvents .devices (splitChunks [49, 48, 48, 50, 32, 32, 65, 66]) =
      .ok [.vendor [49, 48, 48, 50] [65]] ∧
    tokenEvents .devices (splitChunks [120]) = .error (.couldNotMatchDeviceLine []) := by
  have h := final_line_truncation 49 48 48 50 120 [65, 66] rfl rfl rfl rfl (by decide)
    (by decide) rfl rfl (by decide) (by decide)
  exact ⟨h.1, h.2.1, h.2.2⟩

end PciIds
